import Mathlib

/-!
# Verification of the Lab_7 pen-plotter motion pipeline

Shallow embedding of the two source files:

* `servo_translatorr.py` — `translate`: servo angle (degrees) → PWM `duty_u16`.
* `plotter_mainn.py` — joint state, trajectory interpolation
  (`set_servo_angles`), the G-code line parser (`parse_gcode_line`) and the
  dispatch loop (`run_gcode_file`).

Python floats are embedded as rationals (ℚ), so the arithmetic identities of
the source are exact; Python's `int(x)` conversion is truncation toward zero,
embedded as `truncQ`.  Strings are handled at the character-list level, with
Python's `str.strip`, `str.split` and the builtin `float` parser modelled
explicitly.
-/

namespace Lab7

/-- Python `int(q)` on a rational: truncation toward zero. -/
def truncQ (q : ℚ) : ℤ := if 0 ≤ q then ⌊q⌋ else ⌈q⌉

/-- `servo_translatorr.py`, `translate` (lines 6–43): clamp the angle into
`[min_angle, max_angle]`, linearly interpolate the pulse width, convert to a
`duty_u16` fraction of the PWM period, truncate with `int`, and clamp the
result into `[0, 65535]`.  The Python default arguments are supplied
explicitly by every caller in this development. -/
def translate (angle min_angle max_angle min_pulse_us max_pulse_us pwm_freq : ℚ) : ℤ :=
  let a1 := if angle < min_angle then min_angle else angle
  let a2 := if a1 > max_angle then max_angle else a1
  let frac := (a2 - min_angle) / (max_angle - min_angle)
  let pulse_us := min_pulse_us + frac * (max_pulse_us - min_pulse_us)
  let period_us := 1000000 / pwm_freq
  let duty_frac := pulse_us / period_us
  let duty_u16 := truncQ (duty_frac * 65535)
  let d1 := if duty_u16 < 0 then 0 else duty_u16
  if d1 > 65535 then 65535 else d1

/-- Reference definition written from the spec's words (§4.1 AngleToDuty):
clamp `angle` into `[min_angle, max_angle]`; `frac = (angle - min_angle) /
(max_angle - min_angle)`; `pulse_us = min_pulse_us + frac * (max_pulse_us -
min_pulse_us)`; `period_us = 1_000_000 / pwm_freq`; `duty =
round_toward_zero(pulse_us / period_us * 65535)`, then clamp to
`[0, 65535]`. -/
def convert_spec (angle min_angle max_angle min_pulse_us max_pulse_us pwm_freq : ℚ) : ℤ :=
  let clamped := min max_angle (max min_angle angle)
  let frac := (clamped - min_angle) / (max_angle - min_angle)
  let pulse_us := min_pulse_us + frac * (max_pulse_us - min_pulse_us)
  let period_us := 1000000 / pwm_freq
  let duty := truncQ (pulse_us / period_us * 65535)
  min 65535 (max 0 duty)

lemma clampQ_eq (mi ma x : ℚ) (h : mi ≤ ma) :
    (if (if x < mi then mi else x) > ma then ma else (if x < mi then mi else x)) =
      min ma (max mi x) := by
  rcases lt_or_le x mi with hx | hx
  · simp only [if_pos hx]
    rw [max_eq_left hx.le, min_eq_right h, if_neg (not_lt.mpr h)]
  · simp only [if_neg (not_lt.mpr hx)]
    rw [max_eq_right hx]
    rcases lt_or_le ma x with hy | hy
    · rw [if_pos hy, min_eq_left hy.le]
    · rw [if_neg (not_lt.mpr hy), min_eq_right hy]

lemma clampZ_eq (z : ℤ) :
    (if (if z < 0 then 0 else z) > 65535 then 65535 else (if z < 0 then 0 else z)) =
      min 65535 (max 0 z) := by
  rcases lt_or_le z 0 with hz | hz
  · simp [if_pos hz, min_eq_right, max_eq_left hz.le]
  · rw [if_neg (not_lt.mpr hz), max_eq_right hz]
    rcases lt_or_le 65535 z with hy | hy
    · rw [if_pos hy, min_eq_left hy.le]
    · rw [if_neg (not_lt.mpr hy), min_eq_right hy]

lemma clampZ_bounds (z : ℤ) :
    0 ≤ (if (if z < 0 then 0 else z) > 65535 then 65535 else (if z < 0 then 0 else z)) ∧
      (if (if z < 0 then 0 else z) > 65535 then 65535 else (if z < 0 then 0 else z)) ≤ 65535 := by
  rw [clampZ_eq]
  exact ⟨le_min (by norm_num) (le_max_left _ _), min_le_left _ _⟩

/-- C1: for every finite angle and every calibration with
`max_angle > min_angle`, `max_pulse_us > min_pulse_us` and `pwm_freq > 0`,
`translate` returns normally (it is a total function of the embedding) and
its result is an integer in `[0, 65535]`. -/
theorem translate_total_in_range (angle min_angle max_angle min_pulse_us max_pulse_us pwm_freq : ℚ)
    (hAngle : min_angle < max_angle) (hPulse : min_pulse_us < max_pulse_us)
    (hFreq : 0 < pwm_freq) :
    0 ≤ translate angle min_angle max_angle min_pulse_us max_pulse_us pwm_freq ∧
      translate angle min_angle max_angle min_pulse_us max_pulse_us pwm_freq ≤ 65535 := by
  simp only [translate]
  exact clampZ_bounds _

/-- C1 witness: the hypotheses hold and the bounds follow at a concrete
calibration (the source's defaults) and angle 90. -/
theorem translate_total_in_range_witness :
    0 ≤ translate 90 0 180 1000 2000 50 ∧ translate 90 0 180 1000 2000 50 ≤ 65535 :=
  translate_total_in_range 90 0 180 1000 2000 50 (by norm_num) (by norm_num) (by norm_num)

/-- C2: under the Calibration invariant (`min_angle < max_angle`,
`min_pulse_us < max_pulse_us`, `0 < pwm_freq`), the source's `translate`
coincides with the spec's reference definition `convert_spec` (clamp, linear
`frac`, pulse width, period, truncation toward zero, clamp to
`[0, 65535]`). -/
theorem translate_eq_convert_spec
    (angle min_angle max_angle min_pulse_us max_pulse_us pwm_freq : ℚ)
    (hAngle : min_angle < max_angle) (hPulse : min_pulse_us < max_pulse_us)
    (hFreq : 0 < pwm_freq) :
    translate angle min_angle max_angle min_pulse_us max_pulse_us pwm_freq =
      convert_spec angle min_angle max_angle min_pulse_us max_pulse_us pwm_freq := by
  simp only [translate, convert_spec]
  rw [clampQ_eq _ _ _ hAngle.le, clampZ_eq]

/-- C2 witness: the invariant holds and `translate` agrees with the spec's
reference definition at an out-of-range angle (200°) and the source's default
calibration. -/
theorem translate_eq_convert_spec_witness :
    translate 200 0 180 1000 2000 50 = convert_spec 200 0 180 1000 2000 50 :=
  translate_eq_convert_spec 200 0 180 1000 2000 50 (by norm_num) (by norm_num) (by norm_num)

/-! ## plotter_mainn.py: configuration constants (lines 53–76) -/

def WRIST_UP_ANGLE : ℚ := 0
def WRIST_DOWN_ANGLE : ℚ := 30
def SHOULDER_OFFSET : ℚ := 0
def ELBOW_OFFSET : ℚ := 0
def WRIST_OFFSET : ℚ := 0
def STEP_DEG : ℚ := 1
def MIN_ANGLE : ℚ := 0
def MAX_ANGLE : ℚ := 180
def MIN_PULSE_US : ℚ := 1000
def MAX_PULSE_US : ℚ := 2000
def PWM_FREQ : ℚ := 50

/-- The three module-level joint positions `current_shoulder`,
`current_elbow`, `current_wrist` (lines 88–90). -/
structure JointState where
  shoulder : ℚ
  elbow : ℚ
  wrist : ℚ
deriving DecidableEq

/-- The initial joint state (lines 88–90): a safe mid position with the
wrist at the pen-up angle. -/
def initialState : JointState := ⟨90, 90, WRIST_UP_ANGLE⟩

/-- `_write_servo` (lines 143–148): the duty value written to a PWM channel
for a given angle, via `translate` with the module calibration constants.
A hardware write event is fully determined by its angle, so the write
traces below record the angle each `_write_servo` call receives. -/
def write_servo_duty (angle : ℚ) : ℤ :=
  translate angle MIN_ANGLE MAX_ANGLE MIN_PULSE_US MAX_PULSE_US PWM_FREQ

/-- The target triple of `set_servo_angles` (lines 99–110): each supplied
angle gets its per-joint offset added, an absent one defaults to the
corresponding current position. -/
def targets (st : JointState) (s_angle e_angle w_angle : Option ℚ) : JointState where
  shoulder := (s_angle.map (· + SHOULDER_OFFSET)).getD st.shoulder
  elbow := (e_angle.map (· + ELBOW_OFFSET)).getD st.elbow
  wrist := (w_angle.map (· + WRIST_OFFSET)).getD st.wrist

/-- Python `abs` on a float, as the source's `abs(...)` (lines 121–123). -/
def pyAbs (q : ℚ) : ℚ := if q < 0 then -q else q

/-- Python `max` of two floats. -/
def pyMax (a b : ℚ) : ℚ := if a < b then b else a

lemma pyAbs_eq_abs (q : ℚ) : pyAbs q = |q| := by
  unfold pyAbs
  rcases lt_or_le q 0 with h | h
  · rw [if_pos h, abs_of_neg h]
  · rw [if_neg (not_lt.mpr h), abs_of_nonneg h]

lemma pyMax_eq_max (a b : ℚ) : pyMax a b = max a b := by
  unfold pyMax
  rcases lt_or_le a b with h | h
  · rw [if_pos h, max_eq_right h.le]
  · rw [if_neg (not_lt.mpr h), max_eq_left h]

/-- `max_delta` (lines 121–123): the largest absolute angular change over
the three joints. -/
def max_delta (st tg : JointState) : ℚ :=
  pyMax (pyAbs (tg.shoulder - st.shoulder))
    (pyMax (pyAbs (tg.elbow - st.elbow)) (pyAbs (tg.wrist - st.wrist)))

/-- `steps = int(max_delta / STEP_DEG) + 1` (line 127), parametric in the
step size so that its arithmetic can be stated once. -/
def steps_of (maxDelta stepDeg : ℚ) : ℤ := truncQ (maxDelta / stepDeg) + 1

/-- The interpolated angle of one joint at step `i` of `steps`
(lines 130–133): `current + (i / steps) * (target - current)`. -/
def interp (cur tgt : ℚ) (i steps : ℕ) : ℚ :=
  cur + ((i : ℚ) / (steps : ℚ)) * (tgt - cur)

/-- `set_servo_angles` (lines 92–141).  Returns the final joint state and
the trace of hardware-write steps; each trace entry is the triple of angles
passed to `_write_servo` for the shoulder, elbow and wrist channels (the
written duty values are `write_servo_duty` of these angles).  Immediate
moves write the target pose once; otherwise, if `max_delta < 0.0001` the
function returns with no writes; else it writes `steps` interpolated poses
for `i = 1 .. steps` and then commits the exact targets. -/
def set_servo_angles (st : JointState) (s_angle e_angle w_angle : Option ℚ)
    (immediate : Bool) : JointState × List (ℚ × ℚ × ℚ) :=
  let tg := targets st s_angle e_angle w_angle
  if immediate then
    (tg, [(tg.shoulder, tg.elbow, tg.wrist)])
  else
    let md := max_delta st tg
    if md < 1/10000 then (st, [])
    else
      let steps := (steps_of md STEP_DEG).toNat
      (tg, (List.range steps).map fun k =>
        (interp st.shoulder tg.shoulder (k + 1) steps,
         interp st.elbow tg.elbow (k + 1) steps,
         interp st.wrist tg.wrist (k + 1) steps))

lemma targets_idem (st : JointState) (s_angle e_angle w_angle : Option ℚ) :
    targets (targets st s_angle e_angle w_angle) s_angle e_angle w_angle =
      targets st s_angle e_angle w_angle := by
  cases s_angle <;> cases e_angle <;> cases w_angle <;> simp [targets]

lemma max_delta_self (tg : JointState) : max_delta tg tg = 0 := by
  simp [max_delta, pyAbs, pyMax]

/-- C3: every committing call of `set_servo_angles` ends with the joint
state equal to the exact offset-adjusted targets — every immediate call
unconditionally, and every non-immediate call whose `max_delta` is at or
above the `0.0001` threshold; and the interpolated angle of a joint hits its
exact target at step `i = steps` and at no earlier step when that joint's
delta is nonzero. -/
theorem set_servo_angles_exact_arrival :
    (∀ (st : JointState) (s_angle e_angle w_angle : Option ℚ),
        (set_servo_angles st s_angle e_angle w_angle true).1 =
          targets st s_angle e_angle w_angle) ∧
      (∀ (st : JointState) (s_angle e_angle w_angle : Option ℚ),
        1/10000 ≤ max_delta st (targets st s_angle e_angle w_angle) →
        (set_servo_angles st s_angle e_angle w_angle false).1 =
          targets st s_angle e_angle w_angle) ∧
      (∀ (cur tgt : ℚ) (steps : ℕ), steps ≠ 0 → interp cur tgt steps steps = tgt) ∧
      (∀ (cur tgt : ℚ) (i steps : ℕ), i < steps → tgt ≠ cur →
        interp cur tgt i steps ≠ tgt) := by
  refine ⟨fun st s_angle e_angle w_angle => rfl, ?_, ?_, ?_⟩
  · intro st s_angle e_angle w_angle hmd
    simp only [set_servo_angles, Bool.false_eq_true, if_false]
    rw [if_neg (not_lt.mpr hmd)]
  · intro cur tgt steps hsteps
    unfold interp
    rw [div_self (Nat.cast_ne_zero.mpr hsteps)]
    ring
  · intro cur tgt i steps hi hne
    have hs0 : ((steps : ℕ) : ℚ) ≠ 0 := Nat.cast_ne_zero.mpr (Nat.zero_lt_of_lt hi).ne'
    unfold interp
    intro h
    have h2 : ((i : ℚ) / (steps : ℚ)) * (tgt - cur) = 1 * (tgt - cur) := by linarith
    have h3 := mul_right_cancel₀ (sub_ne_zero.mpr hne) h2
    field_simp at h3
    omega

/-- C4: a second non-immediate `set_servo_angles` call with the identical
target arguments is a no-op: it performs zero hardware writes and leaves the
joint state unchanged (after the first call committed the exact targets, the
recomputed `max_delta` is below the `0.0001` threshold). -/
theorem set_servo_angles_idempotent (st : JointState) (s_angle e_angle w_angle : Option ℚ) :
    (set_servo_angles (set_servo_angles st s_angle e_angle w_angle false).1
        s_angle e_angle w_angle false).1 =
      (set_servo_angles st s_angle e_angle w_angle false).1 ∧
    (set_servo_angles (set_servo_angles st s_angle e_angle w_angle false).1
        s_angle e_angle w_angle false).2 = [] := by
  by_cases h : max_delta st (targets st s_angle e_angle w_angle) < 1/10000
  · have h1 : set_servo_angles st s_angle e_angle w_angle false = (st, []) := by
      simp only [set_servo_angles, Bool.false_eq_true, if_false]
      rw [if_pos h]
    rw [h1]
    dsimp only
    rw [h1]
    exact ⟨rfl, rfl⟩
  · have h1 : (set_servo_angles st s_angle e_angle w_angle false).1 =
        targets st s_angle e_angle w_angle := by
      simp only [set_servo_angles, Bool.false_eq_true, if_false]
      rw [if_neg h]
    rw [h1]
    have h2 : set_servo_angles (targets st s_angle e_angle w_angle) s_angle e_angle w_angle false
        = (targets st s_angle e_angle w_angle, []) := by
      simp only [set_servo_angles, Bool.false_eq_true, if_false, targets_idem, max_delta_self]
      norm_num
    rw [h2]
    exact ⟨rfl, rfl⟩

/-- C5: the step count of a committing non-immediate move is
`floor(maxDelta / stepDegrees) + 1`; it is always at least 1 and is
non-decreasing in `maxDelta` for a fixed positive step size; and the move's
hardware-write trace has exactly that many steps. -/
theorem steps_of_formula_monotone (d d2 sd : ℚ) (st : JointState)
    (s_angle e_angle w_angle : Option ℚ)
    (hd : 0 ≤ d) (hdd : d ≤ d2) (hsd : 0 < sd)
    (hmd : 1/10000 ≤ max_delta st (targets st s_angle e_angle w_angle)) :
    steps_of d sd = ⌊d / sd⌋ + 1 ∧ 1 ≤ steps_of d sd ∧ steps_of d sd ≤ steps_of d2 sd ∧
      (set_servo_angles st s_angle e_angle w_angle false).2.length =
        (steps_of (max_delta st (targets st s_angle e_angle w_angle)) STEP_DEG).toNat := by
  have hq : (0 : ℚ) ≤ d / sd := div_nonneg hd hsd.le
  have hq2 : (0 : ℚ) ≤ d2 / sd := div_nonneg (hd.trans hdd) hsd.le
  have e1 : steps_of d sd = ⌊d / sd⌋ + 1 := by
    unfold steps_of truncQ
    rw [if_pos hq]
  have e2 : steps_of d2 sd = ⌊d2 / sd⌋ + 1 := by
    unfold steps_of truncQ
    rw [if_pos hq2]
  refine ⟨e1, ?_, ?_, ?_⟩
  · rw [e1]
    have := Int.floor_nonneg.mpr hq
    omega
  · rw [e1, e2]
    have hle : d / sd ≤ d2 / sd := by gcongr
    have := Int.floor_le_floor hle
    omega
  · simp only [set_servo_angles, Bool.false_eq_true, if_false]
    rw [if_neg (not_lt.mpr hmd)]
    simp

/-- C5 witness: with `maxDelta = 3/2 ≤ 5` and step size 1, the formula, the
lower bound, monotonicity and the trace length all hold at the concrete move
of the C3 witness. -/
theorem steps_of_formula_monotone_witness :
    steps_of (3/2) 1 = ⌊(3/2 : ℚ) / 1⌋ + 1 ∧ 1 ≤ steps_of (3/2) 1 ∧
      steps_of (3/2) 1 ≤ steps_of 5 1 ∧
      (set_servo_angles ⟨90, 90, 0⟩ (some 0) none none false).2.length =
        (steps_of (max_delta ⟨90, 90, 0⟩ (targets ⟨90, 90, 0⟩ (some 0) none none))
          STEP_DEG).toNat :=
  steps_of_formula_monotone (3/2) 5 1 ⟨90, 90, 0⟩ (some 0) none none
    (by norm_num) (by norm_num) (by norm_num)
    (by norm_num [max_delta, targets, pyAbs, pyMax, SHOULDER_OFFSET])

/-! ## plotter_mainn.py: the G-code parser (lines 158–189)

Python strings are embedded as their character lists; `str.strip`,
`str.split` and the builtin `float` are modelled below. -/

/-- The whitespace characters of Python's `str.strip()` / `str.split()`
(ASCII range; the claims' inputs use only plain spaces). -/
def isSpace (c : Char) : Bool :=
  c == ' ' || c == '\t' || c == '\n' || c == '\r' || c == '\x0b' || c == '\x0c'

/-- Python `str.strip()`: drop leading and trailing whitespace. -/
def pyStrip (l : List Char) : List Char :=
  ((l.dropWhile isSpace).reverse.dropWhile isSpace).reverse

/-- Worker for `pySplit`: `acc` holds the current token reversed. -/
def pySplitAux : List Char → List Char → List (List Char)
  | [], acc => if acc = [] then [] else [acc.reverse]
  | c :: t, acc =>
    if isSpace c then
      if acc = [] then pySplitAux t [] else acc.reverse :: pySplitAux t []
    else pySplitAux t (c :: acc)

/-- Python `str.split()` with no argument: the maximal runs of
non-whitespace characters, in order, with no empty tokens. -/
def pySplit (l : List Char) : List (List Char) := pySplitAux l []

/-- The value of a digit string read left to right. -/
def digitsVal (l : List Char) : ℕ := l.foldl (fun a c => 10 * a + (c.toNat - 48)) 0

/-- Split a character list at the first character satisfying `p`: the part
before it, and (when found) the part after it. -/
def splitAtChar (p : Char → Bool) : List Char → List Char × Option (List Char)
  | [] => ([], none)
  | c :: t =>
    if p c then ([], some t)
    else
      let r := splitAtChar p t
      (c :: r.1, r.2)

/-- Modelled from the spec: the builtin `float(str)` that `parse_gcode_line`
calls at line 184 is not part of the repository; this is its decimal-literal
grammar `[±] digits [. digits] [(e|E) [±] digits]` after stripping
surrounding whitespace.  The structural result is
`(negative?, mantissa digits, fraction length, optional (negative?, exponent
digits))`; `none` when the text is not a valid float literal.  `inf`, `nan`,
hex floats and digit-group underscores are not modelled — no claim's input
uses them. -/
def pyFloatRep (s : List Char) : Option (Bool × ℕ × ℕ × Option (Bool × ℕ)) :=
  let cs := pyStrip s
  let neg := cs.head? == some '-'
  let body := if cs.head? == some '+' || cs.head? == some '-' then cs.tail else cs
  let me := splitAtChar (fun c => c == 'e' || c == 'E') body
  let ipfp := splitAtChar (fun c => c == '.') me.1
  let ip := ipfp.1
  let fp := ipfp.2.getD []
  if (ip ++ fp).all Char.isDigit && !(ip.isEmpty && fp.isEmpty) then
    match me.2 with
    | none => some (neg, digitsVal (ip ++ fp), fp.length, none)
    | some ecs =>
      let eneg := ecs.head? == some '-'
      let eds := if ecs.head? == some '+' || ecs.head? == some '-' then ecs.tail else ecs
      if !eds.isEmpty && eds.all Char.isDigit then
        some (neg, digitsVal (ip ++ fp), fp.length, some (eneg, digitsVal eds))
      else none
  else none

/-- The exact rational value of a parsed float literal:
`± mantissa / 10^fracLen`, scaled by `10^±exponent`. -/
def ratOfRep (r : Bool × ℕ × ℕ × Option (Bool × ℕ)) : ℚ :=
  let base : ℚ := (r.2.1 : ℚ) / (10 : ℚ) ^ r.2.2.1
  let signed : ℚ := if r.1 then -base else base
  match r.2.2.2 with
  | none => signed
  | some e => if e.1 then signed / (10 : ℚ) ^ e.2 else signed * (10 : ℚ) ^ e.2

/-- Modelled from the spec: Python's builtin `float(str)` as an exact
rational (see `pyFloatRep`). -/
def pyFloat (s : List Char) : Option ℚ := (pyFloatRep s).map ratOfRep

/-- The dict `parse_gcode_line` returns (lines 160–189): the command word
under `'cmd'`, and the parameter assignments in source order.  A later token
with the same letter overrides an earlier one, exactly as assignment into
the Python dict does; `getParam` reads the dict accordingly. -/
structure Gcmd where
  cmd : String
  params : List (Char × ℚ)
deriving DecidableEq

/-- `parsed.get(letter)`: the dict lookup — the latest assignment wins. -/
def getParam (ps : List (Char × ℚ)) (c : Char) : Option ℚ :=
  ps.foldl (fun acc p => if p.1 = c then some p.2 else acc) none

/-- One iteration of the parameter loop (lines 178–188): strip the token;
skip it when shorter than 2 characters; otherwise parse its numeric suffix
with `float` and on success assign `(uppercased first character, value)`,
on failure drop the token (`except: pass`). -/
def paramStep (ps : List (Char × ℚ)) (tok : List Char) : List (Char × ℚ) :=
  let token := pyStrip tok
  if token.length < 2 then ps
  else
    match pyFloat token.tail with
    | some v => ps ++ [((token.headD ' ').toUpper, v)]
    | none => ps

/-- The parameter loop of `parse_gcode_line` over the tokens after the
command word (lines 177–188). -/
def parseParams (tokens : List (List Char)) : List (Char × ℚ) :=
  tokens.foldl paramStep []

/-- `parse_gcode_line` (lines 158–189) over the line's characters: strip;
an empty result or one starting with `;` or `(` yields `None`; otherwise
split on whitespace, uppercase the first token as the command word, and run
the parameter loop on the remaining tokens. -/
def parseLine (l : List Char) : Option Gcmd :=
  let s := pyStrip l
  if s = [] then none
  else if s.head? = some ';' ∨ s.head? = some '(' then none
  else
    match pySplit s with
    | [] => none
    | c :: rest => some ⟨⟨c.map Char.toUpper⟩, parseParams rest⟩

/-- `parse_gcode_line` on a Python string. -/
def parse_gcode_line (line : String) : Option Gcmd := parseLine line.data

/-- C8: the parser's reference inputs: `G1 S47.847 E57.273` parses to a
`G1` command with shoulder parameter 47.847 and elbow parameter 57.273;
`; comment` yields `None`; `M18` parses to the disable command with no
parameters; `G1 S47.847 Xgarbage` parses to `G1` with shoulder 47.847, the
malformed `Xgarbage` token dropped and the elbow parameter absent. -/
theorem parse_reference_lines :
    parse_gcode_line "G1 S47.847 E57.273" =
        some ⟨"G1", [('S', 47847/1000), ('E', 57273/1000)]⟩ ∧
      parse_gcode_line "; comment" = none ∧
      parse_gcode_line "M18" = some ⟨"M18", []⟩ ∧
      parse_gcode_line "G1 S47.847 Xgarbage" = some ⟨"G1", [('S', 47847/1000)]⟩ ∧
      ((parse_gcode_line "G1 S47.847 Xgarbage").map fun r => getParam r.params 'E') =
        some none := by
  have e1 : parse_gcode_line "G1 S47.847 E57.273" =
      some ⟨"G1", [('S', ratOfRep (false, 47847, 3, none)),
                   ('E', ratOfRep (false, 57273, 3, none))]⟩ := rfl
  have e4 : parse_gcode_line "G1 S47.847 Xgarbage" =
      some ⟨"G1", [('S', ratOfRep (false, 47847, 3, none))]⟩ := rfl
  refine ⟨?_, rfl, rfl, ?_, ?_⟩
  · rw [e1]
    norm_num [ratOfRep]
  · rw [e4]
    norm_num [ratOfRep]
  · rw [e4]
    rfl

lemma paramStep_malformed (ps : List (Char × ℚ)) (t : List Char)
    (h : (pyStrip t).length < 2 ∨ pyFloat (pyStrip t).tail = none) :
    paramStep ps t = ps := by
  simp only [paramStep]
  rcases h with h | h
  · rw [if_pos h]
  · by_cases hl : (pyStrip t).length < 2
    · rw [if_pos hl]
    · rw [if_neg hl, h]

lemma parseParams_drop (pre post : List (List Char)) (t : List Char)
    (h : (pyStrip t).length < 2 ∨ pyFloat (pyStrip t).tail = none) :
    parseParams (pre ++ t :: post) = parseParams (pre ++ post) := by
  unfold parseParams
  rw [List.foldl_append, List.foldl_append, List.foldl_cons, paramStep_malformed _ _ h]

/-- C9: parsing is total per line — every input line yields `None` or a
structured command, never an error — and a parameter token that is shorter
than 2 characters or whose numeric suffix fails to parse as a float is
dropped while the remaining tokens of the line contribute exactly as they
would without it. -/
theorem parse_total_and_malformed_token_dropped (pre post : List (List Char)) (t : List Char)
    (h : (pyStrip t).length < 2 ∨ pyFloat (pyStrip t).tail = none) :
    (∀ line : String, parse_gcode_line line = none ∨
        ∃ r : Gcmd, parse_gcode_line line = some r) ∧
      parseParams (pre ++ t :: post) = parseParams (pre ++ post) := by
  refine ⟨fun line => ?_, parseParams_drop pre post t h⟩
  cases h2 : parse_gcode_line line with
  | none => exact Or.inl rfl
  | some r => exact Or.inr ⟨r, rfl⟩

/-- C9 witness: the token `Xgarbage` is malformed (its suffix is not a
float), and dropping it between `S1` and `E2` leaves those tokens'
contributions unchanged. -/
theorem parse_total_and_malformed_token_dropped_witness :
    ((pyStrip "Xgarbage".data).length < 2 ∨ pyFloat (pyStrip "Xgarbage".data).tail = none) ∧
      ((∀ line : String, parse_gcode_line line = none ∨
          ∃ r : Gcmd, parse_gcode_line line = some r) ∧
        parseParams (["S1".data] ++ "Xgarbage".data :: ["E2".data]) =
          parseParams (["S1".data] ++ ["E2".data])) :=
  ⟨Or.inr rfl,
    parse_total_and_malformed_token_dropped ["S1".data] ["E2".data] "Xgarbage".data
      (Or.inr rfl)⟩

/-- C10: a comment marker is recognised only as the first character of the
stripped line.  A `;` occurring mid-line does not truncate it: the tokens
after the marker are still parsed as ordinary parameter tokens — in
`G1 X1 ; S99` the `S99` after the `;` still assigns the shoulder parameter —
while a lone marker token itself merely fails the two-character rule and
is dropped; a line whose first non-whitespace character is `;` or `(` is a
comment and yields `None`. -/
theorem comment_marker_only_at_line_start :
    parse_gcode_line "G1 X1 ; S99" = some ⟨"G1", [('X', 1), ('S', 99)]⟩ ∧
      parse_gcode_line " ; G1 S5" = none ∧
      parse_gcode_line "( note G1 S5" = none ∧
      (∀ ts1 ts2 : List (List Char),
        parseParams (ts1 ++ [';'] :: ts2) = parseParams (ts1 ++ ts2)) ∧
      (∀ ts1 ts2 : List (List Char),
        parseParams (ts1 ++ ['('] :: ts2) = parseParams (ts1 ++ ts2)) := by
  have e1 : parse_gcode_line "G1 X1 ; S99" =
      some ⟨"G1", [('X', ratOfRep (false, 1, 0, none)),
                   ('S', ratOfRep (false, 99, 0, none))]⟩ := rfl
  refine ⟨?_, rfl, rfl, ?_, ?_⟩
  · rw [e1]
    norm_num [ratOfRep]
  · intro ts1 ts2
    exact parseParams_drop ts1 ts2 [';'] (Or.inl (by decide))
  · intro ts1 ts2
    exact parseParams_drop ts1 ts2 ['('] (Or.inl (by decide))

/-! ## plotter_mainn.py: the dispatch loop of run_gcode_file (lines 191–238) -/

/-- The effect of one iteration of the dispatch loop (lines 198–235):
`halt` when the line is `M18` (the servo channels are deinitialized and the
loop `break`s — note `disable_servos`, lines 151–155, does not touch the
joint state); otherwise the continuation joint state together with the
hardware-write trace of the dispatched command. -/
inductive StepRes where
  | halt : StepRes
  | cont : JointState → List (ℚ × ℚ × ℚ) → StepRes

/-- One iteration of the loop body (lines 198–235): strip the raw line,
skip blank lines and unparsed lines; dispatch `G1` (skipped when neither
`S` nor `E` is present), `M3` (wrist to the pen-down angle), `M5` (wrist to
the pen-up angle), `M18` (disable and halt); unknown commands are only
reported. -/
def runStep (st : JointState) (raw : String) : StepRes :=
  let line := pyStrip raw.data
  if line = [] then .cont st []
  else
    match parseLine line with
    | none => .cont st []
    | some r =>
      if r.cmd = "G1" then
        let s_val := getParam r.params 'S'
        let e_val := getParam r.params 'E'
        if s_val = none ∧ e_val = none then .cont st []
        else
          let p := set_servo_angles st s_val e_val none false
          .cont p.1 p.2
      else if r.cmd = "M3" then
        let p := set_servo_angles st none none (some WRIST_DOWN_ANGLE) false
        .cont p.1 p.2
      else if r.cmd = "M5" then
        let p := set_servo_angles st none none (some WRIST_UP_ANGLE) false
        .cont p.1 p.2
      else if r.cmd = "M18" then .halt
      else .cont st []

/-- The dispatch loop of `run_gcode_file` over the file's lines: the final
joint state and the concatenated hardware-write trace.  An `M18` line breaks
out of the loop; the lines after it are never examined. -/
def runLines (st : JointState) : List String → JointState × List (ℚ × ℚ × ℚ)
  | [] => (st, [])
  | raw :: rest =>
    match runStep st raw with
    | .halt => (st, [])
    | .cont st2 ws =>
      let q := runLines st2 rest
      (q.1, ws ++ q.2)

lemma runStep_m18 (st : JointState) (raw : String) (r : Gcmd)
    (hp : parseLine (pyStrip raw.data) = some r) (hc : r.cmd = "M18") :
    runStep st raw = .halt := by
  have hne : ¬ pyStrip raw.data = [] := by
    intro h0
    rw [h0] at hp
    exact Option.noConfusion hp
  simp only [runStep]
  rw [if_neg hne]
  simp only [hp]
  rw [hc,
    if_neg (by decide : ¬ ("M18" : String) = "G1"),
    if_neg (by decide : ¬ ("M18" : String) = "M3"),
    if_neg (by decide : ¬ ("M18" : String) = "M5"),
    if_pos (rfl : ("M18" : String) = "M18")]

/-- C6 counterexample: processing `M3` then `M18` from the initial state
leaves the joint state at the pen-down pose, not reset to the default the
state was created with — `DisableAll` performs no reset. -/
theorem disable_does_not_reset_state :
    (runLines initialState ["M3", "M18"]).1 ≠ initialState := by
  have h1 : runStep initialState "M3" =
      .cont (set_servo_angles initialState none none (some WRIST_DOWN_ANGLE) false).1
        (set_servo_angles initialState none none (some WRIST_DOWN_ANGLE) false).2 := rfl
  have h2 : (set_servo_angles initialState none none (some WRIST_DOWN_ANGLE) false).1 =
      (⟨90, 90, 30⟩ : JointState) := by
    norm_num [set_servo_angles, targets, max_delta, pyAbs, pyMax, initialState,
      WRIST_DOWN_ANGLE, WRIST_UP_ANGLE, WRIST_OFFSET]
  have h3 : runStep (⟨90, 90, 30⟩ : JointState) "M18" = .halt := rfl
  have h4 : (runLines initialState ["M3", "M18"]).1 = (⟨90, 90, 30⟩ : JointState) := by
    simp only [runLines, h1, h2, h3]
  rw [h4]
  simp only [initialState, WRIST_UP_ANGLE, ne_eq, JointState.mk.injEq]
  norm_num

/-- C6 amended: when an `M18` line is processed, the servo channels are
deinitialized and the run halts, but the joint state is left exactly as it
was — it is not reset to the default it was created with. -/
theorem disable_preserves_joint_state (st : JointState) (line : String) (rest : List String)
    (r : Gcmd) (hp : parseLine (pyStrip line.data) = some r) (hc : r.cmd = "M18") :
    runLines st (line :: rest) = (st, []) := by
  simp only [runLines, runStep_m18 st line r hp hc]

/-- C6 amended witness: an `M18` line among further input halts the run with
the joint state unchanged at a concrete non-default pose. -/
theorem disable_preserves_joint_state_witness :
    runLines ⟨1, 2, 3⟩ ["M18", "G1 S5"] = ((⟨1, 2, 3⟩ : JointState), []) :=
  disable_preserves_joint_state ⟨1, 2, 3⟩ "M18" ["G1 S5"] ⟨"M18", []⟩ rfl rfl

/-- C7: once a line parsing to `M18` is reached, the dispatcher never
processes another line: the run over any longer tail equals the run that
stops at that `M18` line — identical final joint state and identical
hardware-write trace, whatever and however many lines follow. -/
theorem m18_halts_dispatch (st : JointState) (pre rest : List String) (line : String)
    (r : Gcmd) (hp : parseLine (pyStrip line.data) = some r) (hc : r.cmd = "M18") :
    runLines st (pre ++ line :: rest) = runLines st (pre ++ [line]) := by
  induction pre generalizing st with
  | nil =>
    show runLines st (line :: rest) = runLines st (line :: [])
    simp only [runLines, runStep_m18 st line r hp hc]
  | cons p ps ih =>
    show runLines st (p :: (ps ++ line :: rest)) = runLines st (p :: (ps ++ [line]))
    simp only [runLines]
    cases hq : runStep st p with
    | halt => rfl
    | cont st2 ws =>
      dsimp only
      rw [ih st2]

/-- C7 witness: with a comment line before it and a move after it, the run
over the longer input equals the run stopping at `M18`. -/
theorem m18_halts_dispatch_witness :
    runLines ⟨90, 90, 0⟩ (["; lift pen"] ++ "M18" :: ["G1 S5"]) =
      runLines ⟨90, 90, 0⟩ (["; lift pen"] ++ ["M18"]) :=
  m18_halts_dispatch ⟨90, 90, 0⟩ ["; lift pen"] ["G1 S5"] "M18" ⟨"M18", []⟩ rfl rfl

end Lab7
